import Mathlib

/-!
Shallow embedding of the math-invaders game engine
(`src/hooks/useGameEngine.ts`, `src/utils/highScores.ts`).

Numbers that are JS `number`s holding coordinates or times are modelled as
`Rat`; integer counters (score, lives, level) as `Int`.  Randomness
(`Math.random`) is modelled as an explicitly threaded seed of a linear
congruential generator, and `Date.now()` as an explicit `now : Nat`
parameter, both packaged in an `Env` value handed to each dispatch.
Calls to `saveHighScore` made by the reducer are modelled as emitted
effects: the reducer returns the new state together with the list of
`SaveScoreEffect`s it performed.
-/

namespace MathInvaders

/-- Operation selected in the menu (`OperationType` in `types/game.ts`,
as used by `MainMenu.tsx` and `highScores.ts`). -/
inductive OperationType
  | addition
  | subtraction
  | multiplication
  | division
deriving DecidableEq, Repr

/-- Practice mode (`"all" | "specific"`). -/
inductive PracticeMode
  | all
  | specific
deriving DecidableEq, Repr

/-- `GameSettings` as built by `MainMenu.handleStartGame`. -/
structure GameSettings where
  operation : OperationType
  practiceMode : PracticeMode
  specificNumber : Option Nat
  practiceDuration : Nat
deriving DecidableEq, Repr

/-- Game status (`"menu" | "playing" | "gameOver"`). -/
inductive Status
  | menu
  | playing
  | gameOver
deriving DecidableEq, Repr

/-- `MathProblem`: operands, operation and the correct answer. -/
structure MathProblem where
  operandA : Int
  operandB : Int
  operation : OperationType
  correctAnswer : Int
deriving DecidableEq, Repr

/-- `FallingAnswer`: one on-screen answer candidate. -/
structure FallingAnswer where
  id : String
  value : Int
  x : Rat
  y : Rat
  speed : Rat
  isCorrect : Bool
deriving DecidableEq, Repr

/-- `Bullet`: a player projectile. -/
structure Bullet where
  id : String
  x : Rat
  y : Rat
  speed : Rat
deriving DecidableEq, Repr

/-- `GameState` held by the reducer in `useGameEngine.ts`. -/
structure GameState where
  status : Status
  settings : Option GameSettings
  currentProblem : Option MathProblem
  fallingAnswers : List FallingAnswer
  bullets : List Bullet
  playerX : Rat
  score : Int
  lives : Int
  level : Int
  showingAnswer : Bool
  timeRemaining : Rat
deriving DecidableEq, Repr

/-- `GameAction`, the tagged action union of `useGameEngine.ts`. -/
inductive GameAction
  | START_GAME (settings : GameSettings)
  | MOVE_PLAYER (x : Rat)
  | SHOOT
  | UPDATE_BULLETS
  | UPDATE_GAME (deltaTime : Rat)
  | UPDATE_TIMER (deltaTime : Rat)
  | HIT_ANSWER (answerId : String)
  | MISS_ANSWER (answerId : String)
  | SHOW_CORRECT_ANSWER
  | NEXT_PROBLEM
  | GAME_OVER
  | RETURN_TO_MENU
deriving DecidableEq, Repr

/-- Ambient impure inputs of one dispatch: the random seed consumed by
problem generation and the current `Date.now()` value used for ids. -/
structure Env where
  seed : Nat
  now : Nat
deriving DecidableEq, Repr

/-- One `saveHighScore(settings, score)` call performed by the reducer. -/
structure SaveScoreEffect where
  settings : GameSettings
  score : Int
deriving DecidableEq, Repr

def GAME_WIDTH : Rat := 800
def GAME_HEIGHT : Rat := 600
def PLAYER_SIZE : Rat := 60
def ANSWER_SIZE : Rat := 50
def BULLET_SPEED : Rat := 8

/-- `createInitialState` from `useGameEngine.ts`. -/
def createInitialState : GameState :=
  { status := Status.menu
    settings := none
    currentProblem := none
    fallingAnswers := []
    bullets := []
    playerX := GAME_WIDTH / 2
    score := 0
    lives := 3
    level := 1
    showingAnswer := false
    timeRemaining := 0 }

/-- One step of a linear congruential generator standing in for the
injected seedable random source; returns a value in `[0, n)` together
with the successor seed. -/
def randNat (seed n : Nat) : Nat × Nat :=
  let s := (seed * 1103515245 + 12345) % 2147483648
  (s % n, s)

/-- Modelled from the spec: `generate(operation, fixedOperand?)` of the
Problem Generator (`generateProblem` in the missing `utils/mathUtils.ts`).
Addition/subtraction operands are drawn from `[0,10]`,
multiplication/division from `[0,12]`; a given `fixedOperand` pins one
operand; subtraction swaps operands so the result is non-negative;
division draws a divisor (at least 1) and a quotient and sets
`operandA = operandB * quotient`, so the answer is the quotient.
The threaded seed models the injected random source. -/
def generateProblem (op : OperationType) (fixedOperand : Option Nat) (seed : Nat) :
    MathProblem × Nat :=
  match op with
  | OperationType.addition =>
    let p := match fixedOperand with
      | some f => (f, seed)
      | none => randNat seed 11
    let q := randNat p.2 11
    (⟨p.1, q.1, op, (p.1 : Int) + q.1⟩, q.2)
  | OperationType.subtraction =>
    let p := match fixedOperand with
      | some f => (f, seed)
      | none => randNat seed 11
    let q := randNat p.2 11
    let a := max p.1 q.1
    let b := min p.1 q.1
    (⟨a, b, op, (a : Int) - b⟩, q.2)
  | OperationType.multiplication =>
    let p := match fixedOperand with
      | some f => (f, seed)
      | none => randNat seed 13
    let q := randNat p.2 13
    (⟨p.1, q.1, op, (p.1 : Int) * q.1⟩, q.2)
  | OperationType.division =>
    let p := match fixedOperand with
      | some f => (max 1 f, seed)
      | none =>
        let r := randNat seed 12
        (r.1 + 1, r.2)
    let q := randNat p.2 13
    (⟨(p.1 : Int) * q.1, p.1, op, (q.1 : Int)⟩, q.2)

/-- Modelled from the spec: the distractor values lie in a small offset
band around the correct answer, clamped at 0 (`max 0 (correct - 5 + r)`
with `r` drawn from `[0,10]`). -/
def wrongCandidate (correct : Int) (r : Nat) : Int :=
  max 0 (correct - 5 + r)

/-- Modelled from the spec: deterministic fallback used once the bounded
attempt cap of the rejection sampler is exhausted — values just above the
offset band, hence distinct from the correct answer, from each other and
from every band value already accepted. -/
def bandFallback (correct : Int) (need : Nat) : List Int :=
  (List.range need).map (fun i : Nat => correct + 6 + (i : Int))

/-- Modelled from the spec: the rejection-sampling loop of
`generateDistractors(correctAnswer, count)` (`generateWrongAnswers` in
the missing `utils/mathUtils.ts`): draw a band value, keep it if it is
distinct from the correct answer and from those already kept, retry on
collision, and fill from `bandFallback` when the attempt cap runs out. -/
def goWrong (correct : Int) (count : Nat) : Nat → Nat → List Int → List Int × Nat
  | 0, seed, acc => (acc ++ bandFallback correct (count - acc.length), seed)
  | fuel + 1, seed, acc =>
    if count ≤ acc.length then (acc, seed)
    else
      let r := randNat seed 11
      let cand := wrongCandidate correct r.1
      if cand ≠ correct ∧ cand ∉ acc then
        goWrong correct count fuel r.2 (acc ++ [cand])
      else
        goWrong correct count fuel r.2 acc

/-- Modelled from the spec: `generateDistractors(correctAnswer, count)`,
with a bounded attempt cap guaranteeing termination. -/
def generateWrongAnswers (correct : Int) (count : Nat) (seed : Nat) : List Int × Nat :=
  goWrong correct count (count * 10 + 10) seed []

/-- JS array destructuring swap `[l[i], l[j]] = [l[j], l[i]]`. -/
def listSwap (l : List Int) (i j : Nat) : List Int :=
  match l.get? i, l.get? j with
  | some a, some b => (l.set i b).set j a
  | _, _ => l

/-- The Fisher–Yates loop of `generateNewProblem` (`useGameEngine.ts`
lines 57–60): counting `i` down, draw `j` uniformly from `[0, i]` and
swap positions `i` and `j`. -/
def fyGo : Nat → Nat → List Int → List Int
  | 0, _, l => l
  | k + 1, seed, l =>
    let r := randNat seed (k + 2)
    fyGo k r.2 (listSwap l (k + 1) r.1)

/-- The whole shuffle: `for (let i = length - 1; i > 0; i--)`. -/
def fisherYates (seed : Nat) (l : List Int) : List Int :=
  fyGo (l.length - 1) seed l

/-- The id string `answer-${Date.now()}-${index}`. -/
def answerId (now idx : Nat) : String :=
  "answer-" ++ toString now ++ "-" ++ toString idx

/-- The indexed `allAnswers.map((value, index) => ...)` of
`generateNewProblem`: assign id, evenly spaced `x`, fixed `y = 100`,
`speed = 0` and `isCorrect := value === correctAnswer`. -/
def mkAnswers (now : Nat) (correct : Int) (spacing : Rat) : Nat → List Int → List FallingAnswer
  | _, [] => []
  | i, v :: rest =>
    { id := answerId now i
      value := v
      x := spacing * (i + 1)
      y := 100
      speed := 0
      isCorrect := v == correct } :: mkAnswers now correct spacing (i + 1) rest

/-- `generateNewProblem(settings)` from `useGameEngine.ts`: generate a
problem, three wrong answers, shuffle `[correct, ...wrong]`, then map to
positioned `FallingAnswer`s. -/
def generateNewProblem (settings : GameSettings) (env : Env) :
    MathProblem × List FallingAnswer :=
  let p := generateProblem settings.operation settings.specificNumber env.seed
  let problem := p.1
  let w := generateWrongAnswers problem.correctAnswer 3 p.2
  let allAnswers := problem.correctAnswer :: w.1
  let shuffled := fisherYates w.2 allAnswers
  let spacing := GAME_WIDTH / (allAnswers.length + 1)
  (problem, mkAnswers env.now problem.correctAnswer spacing 0 shuffled)

/-- The id string `bullet-${Date.now()}`. -/
def bulletId (now : Nat) : String :=
  "bullet-" ++ toString now

/-- `gameReducer(state, action)` from `useGameEngine.ts`, returning the
new state together with the `saveHighScore` effects the branch performs. -/
def gameReducer (env : Env) (state : GameState) (action : GameAction) :
    GameState × List SaveScoreEffect :=
  match action with
  | GameAction.START_GAME settings =>
    let g := generateNewProblem settings env
    ({ createInitialState with
        status := Status.playing
        settings := some settings
        currentProblem := some g.1
        fallingAnswers := g.2
        lives := 3
        score := 0
        level := 1
        timeRemaining := (settings.practiceDuration : Rat) }, [])
  | GameAction.MOVE_PLAYER x =>
    ({ state with
        playerX := max (PLAYER_SIZE / 2) (min (GAME_WIDTH - PLAYER_SIZE / 2) x) }, [])
  | GameAction.SHOOT =>
    if state.status ≠ Status.playing then (state, [])
    else
      let bullet : Bullet :=
        { id := bulletId env.now
          x := state.playerX
          y := GAME_HEIGHT - PLAYER_SIZE - 10
          speed := BULLET_SPEED }
      ({ state with bullets := state.bullets ++ [bullet] }, [])
  | GameAction.UPDATE_BULLETS =>
    let updatedBullets :=
      (state.bullets.map (fun b => { b with y := b.y - BULLET_SPEED })).filter
        (fun b => 0 < b.y)
    ({ state with bullets := updatedBullets }, [])
  | GameAction.HIT_ANSWER answerId =>
    match state.fallingAnswers.find? (fun a => a.id == answerId) with
    | none => (state, [])
    | some answer =>
      if answer.isCorrect then
        let newScore := state.score + 10
        let newLevel := newScore.fdiv 50 + 1
        match state.settings with
        | none => (state, [])
        | some settings =>
          let g := generateNewProblem settings env
          ({ state with
              score := newScore
              level := newLevel
              currentProblem := some g.1
              fallingAnswers := g.2
              bullets := [] }, [])
      else
        let newLives := state.lives - 1
        if newLives ≤ 0 then
          ({ state with
              lives := 0
              status := Status.gameOver
              showingAnswer := true },
           match state.settings with
           | some settings => [⟨settings, state.score⟩]
           | none => [])
        else
          ({ state with
              lives := newLives
              showingAnswer := true
              bullets := [] }, [])
  | GameAction.SHOW_CORRECT_ANSWER =>
    ({ state with showingAnswer := true }, [])
  | GameAction.NEXT_PROBLEM =>
    match state.settings with
    | none => (state, [])
    | some settings =>
      let g := generateNewProblem settings env
      ({ state with
          currentProblem := some g.1
          fallingAnswers := g.2
          showingAnswer := false
          bullets := [] }, [])
  | GameAction.MISS_ANSWER answerId =>
    ({ state with
        fallingAnswers := state.fallingAnswers.filter (fun a => ¬(a.id == answerId)) }, [])
  | GameAction.UPDATE_GAME _ =>
    if state.status ≠ Status.playing then (state, []) else (state, [])
  | GameAction.UPDATE_TIMER deltaTime =>
    if state.status ≠ Status.playing then (state, [])
    else
      let newTimeRemaining := max 0 (state.timeRemaining - deltaTime)
      if newTimeRemaining = 0 ∧ 0 < state.timeRemaining then
        ({ state with timeRemaining := 0, status := Status.gameOver },
         match state.settings with
         | some settings => [⟨settings, state.score⟩]
         | none => [])
      else
        ({ state with timeRemaining := newTimeRemaining }, [])
  | GameAction.GAME_OVER =>
    ({ state with status := Status.gameOver }, [])
  | GameAction.RETURN_TO_MENU =>
    (createInitialState, [])

/-- The operation component of a high-score key. -/
def opKeyString : OperationType → String
  | OperationType.addition => "addition"
  | OperationType.subtraction => "subtraction"
  | OperationType.multiplication => "multiplication"
  | OperationType.division => "division"

/-- `getScoreKey(settings)` from `highScores.ts`. -/
def getScoreKey (settings : GameSettings) : String :=
  match settings.practiceMode, settings.specificNumber with
  | PracticeMode.specific, some n =>
    opKeyString settings.operation ++ "-specific-" ++ toString n ++ "-" ++
      toString settings.practiceDuration ++ "s"
  | _, _ =>
    opKeyString settings.operation ++ "-all-" ++
      toString settings.practiceDuration ++ "s"

/-- A stored `HighScore` record (`{score, date}`). -/
structure HighScore where
  score : Int
  date : String
deriving DecidableEq, Repr

/-- The parsed `HighScores` object: key to record. -/
def HighScoresMap : Type := List (String × HighScore)

instance : DecidableEq HighScoresMap := by
  unfold HighScoresMap
  infer_instance

/-- JS object lookup `scores[key]`. -/
def objGet (m : HighScoresMap) (key : String) : Option HighScore :=
  (List.find? (fun e => e.1 == key) m).map (fun e => e.2)

/-- JS object update `scores[key] = v` (replace or append). -/
def objSet (m : HighScoresMap) (key : String) (v : HighScore) : HighScoresMap :=
  match m with
  | [] => [(key, v)]
  | e :: rest => if e.1 == key then (key, v) :: rest else e :: objSet rest key v

/-- The browser storage behind `localStorage`.  `stored` is the parsed
content under the high-scores key (`none` when nothing is stored);
`readFails` makes `getItem`/`JSON.parse` throw, `writeFails` makes
`setItem` throw — the two independent failure points of `highScores.ts`. -/
structure LocalStorage where
  stored : Option HighScoresMap
  readFails : Bool
  writeFails : Bool
deriving DecidableEq

/-- `getHighScores()` from `highScores.ts`: parse the stored object,
returning `{}` when nothing is stored or the read throws. -/
def getHighScores (ls : LocalStorage) : HighScoresMap :=
  if ls.readFails then [] else ls.stored.getD []

/-- `getHighScore(settings)` from `highScores.ts`:
`scores[key]?.score || 0`. -/
def getHighScore (settings : GameSettings) (ls : LocalStorage) : Int :=
  ((objGet (getHighScores ls) (getScoreKey settings)).map (fun h => h.score)).getD 0

/-- `saveHighScore(settings, score)` from `highScores.ts`: record the
score under the settings key iff it strictly exceeds the current best;
a throwing write is caught and reported as `false` with the storage
untouched.  `dateStr` models `new Date().toISOString()`. -/
def saveHighScore (settings : GameSettings) (score : Int) (dateStr : String)
    (ls : LocalStorage) : Bool × LocalStorage :=
  let scores := getHighScores ls
  let key := getScoreKey settings
  let currentHigh := ((objGet scores key).map (fun h => h.score)).getD 0
  if currentHigh < score then
    if ls.writeFails then (false, ls)
    else (true, { ls with stored := some (objSet scores key ⟨score, dateStr⟩) })
  else (false, ls)

/-- One dispatch of `HIT_ANSWER` whose looked-up candidate is correct:
the "RESOLVE_HIT on the correct candidate" step of the spec. -/
def CorrectStep (e : Env) (aid : String) (s t : GameState) : Prop :=
  (∃ a, s.fallingAnswers.find? (fun x => x.id == aid) = some a ∧ a.isCorrect = true) ∧
  t = (gameReducer e s (GameAction.HIT_ANSWER aid)).1

/-- `n` consecutive correct-hit dispatches. -/
inductive CorrectHits : GameState → Nat → GameState → Prop
  | refl (s : GameState) : CorrectHits s 0 s
  | step {e : Env} {aid : String} {s t u : GameState} {n : Nat} :
      CorrectStep e aid s t → CorrectHits t n u → CorrectHits s (n + 1) u

/-- One dispatch of `HIT_ANSWER` whose looked-up candidate is incorrect. -/
def WrongStep (e : Env) (aid : String) (s t : GameState) : Prop :=
  (∃ a, s.fallingAnswers.find? (fun x => x.id == aid) = some a ∧ a.isCorrect = false) ∧
  t = (gameReducer e s (GameAction.HIT_ANSWER aid)).1

/-- States reachable from the initial state by dispatching any actions
under any ambient environments. -/
inductive Reachable : GameState → Prop
  | init : Reachable createInitialState
  | step {s : GameState} {e : Env} {a : GameAction} :
      Reachable s → Reachable ((gameReducer e s a).1)

/-- A concrete configuration used by witnesses. -/
def cfg0 : GameSettings :=
  { operation := OperationType.addition
    practiceMode := PracticeMode.all
    specificNumber := none
    practiceDuration := 60 }

/-- A concrete environment used by witnesses. -/
def env0 : Env := { seed := 0, now := 0 }

/-- The state right after `START_GAME cfg0` under `env0`. -/
def startedState : GameState :=
  (gameReducer env0 createInitialState (GameAction.START_GAME cfg0)).1

/-- A concrete playing state holding one correct candidate. -/
def sCorrect : GameState :=
  { status := Status.playing
    settings := some cfg0
    currentProblem := some ⟨3, 2, OperationType.addition, 5⟩
    fallingAnswers := [{ id := "c0", value := 5, x := 160, y := 100, speed := 0, isCorrect := true }]
    bullets := []
    playerX := 400
    score := 0
    lives := 3
    level := 1
    showingAnswer := false
    timeRemaining := 60 }

/-- A concrete incorrect candidate used by witnesses. -/
def wrongAns : FallingAnswer :=
  { id := "w0", value := 7, x := 160, y := 100, speed := 0, isCorrect := false }

/-- A concrete playing state holding one incorrect candidate. -/
def sWrong : GameState :=
  { status := Status.playing
    settings := some cfg0
    currentProblem := some ⟨3, 2, OperationType.addition, 5⟩
    fallingAnswers := [wrongAns]
    bullets := []
    playerX := 400
    score := 0
    lives := 3
    level := 1
    showingAnswer := false
    timeRemaining := 60 }

lemma playerHalf : PLAYER_SIZE / 2 = (30 : Rat) := by
  norm_num [PLAYER_SIZE]

lemma playerRight : GAME_WIDTH - PLAYER_SIZE / 2 = (770 : Rat) := by
  norm_num [GAME_WIDTH, PLAYER_SIZE]

lemma move_player_eq (e : Env) (s : GameState) (x : Rat) :
    gameReducer e s (GameAction.MOVE_PLAYER x) =
      ({ s with playerX := max 30 (min 770 x) }, []) := by
  simp only [gameReducer]
  rw [playerRight, playerHalf]

/-- C6: `MOVE_PLAYER targetX` sets `playerX` to
`clamp(targetX, 30, 770)` in every state; a target below 30 lands exactly
at 30, a target above 770 lands exactly at 770, and an in-range target is
kept unchanged. -/
theorem C6_move_clamps (e : Env) (s : GameState) (x : Rat) :
    gameReducer e s (GameAction.MOVE_PLAYER x) =
      ({ s with playerX := max 30 (min 770 x) }, []) ∧
    (x ≤ 30 → ((gameReducer e s (GameAction.MOVE_PLAYER x)).1).playerX = 30) ∧
    (770 ≤ x → ((gameReducer e s (GameAction.MOVE_PLAYER x)).1).playerX = 770) ∧
    (30 ≤ x → x ≤ 770 → ((gameReducer e s (GameAction.MOVE_PLAYER x)).1).playerX = x) := by
  refine ⟨move_player_eq e s x, ?_, ?_, ?_⟩
  · intro hx
    rw [move_player_eq]
    have hmin : min (770 : Rat) x = x := min_eq_right (le_trans hx (by norm_num))
    simp [hmin, max_eq_left hx]
  · intro hx
    rw [move_player_eq]
    have hmin : min (770 : Rat) x = 770 := min_eq_left hx
    have : (30 : Rat) ≤ 770 := by norm_num
    simp [hmin, max_eq_right this]
  · intro h1 h2
    rw [move_player_eq]
    simp [min_eq_right h2, max_eq_right h1]

/-- C6 witness: a target beyond the right bound lands at 770. -/
theorem C6_witness :
    ((gameReducer env0 createInitialState (GameAction.MOVE_PLAYER 900)).1).playerX = 770 :=
  (C6_move_clamps env0 createInitialState 900).2.2.1 (by norm_num)

/-- C5 counterexample: in the initial (menu) state, `MOVE_PLAYER 100`
does not return the state unchanged — it moves the player. -/
theorem C5_counterexample :
    ¬ ((gameReducer env0 createInitialState (GameAction.MOVE_PLAYER 100)).1 =
        createInitialState) := by
  intro h
  have h2 := congrArg GameState.playerX h
  rw [move_player_eq] at h2
  simp only [createInitialState] at h2
  rw [show max (30 : Rat) (min 770 100) = 100 by norm_num] at h2
  norm_num [GAME_WIDTH] at h2

/-- C5 (amended): while status is not `playing`, `SHOOT` returns the
state unchanged with no effect, but `MOVE_PLAYER` is applied regardless
of status, clamping the target into `[30, 770]`; neither surfaces an
error. -/
theorem C5_shoot_ignored (e : Env) (s : GameState) (x : Rat)
    (h : s.status ≠ Status.playing) :
    gameReducer e s GameAction.SHOOT = (s, []) ∧
    gameReducer e s (GameAction.MOVE_PLAYER x) =
      ({ s with playerX := max 30 (min 770 x) }, []) := by
  refine ⟨?_, move_player_eq e s x⟩
  simp [gameReducer, h]

/-- C5 witness: the initial menu state ignores `SHOOT`. -/
theorem C5_witness :
    gameReducer env0 createInitialState GameAction.SHOOT = (createInitialState, []) :=
  (C5_shoot_ignored env0 createInitialState 0 (by decide)).1

/-- C1: from a playing state with positive `timeRemaining`, a
`UPDATE_TIMER` tick whose delta is at least the remaining time moves the
status to `gameOver` with `timeRemaining` pinned at 0; every further
`UPDATE_TIMER` then leaves the state unchanged, and `UPDATE_TIMER` is
ignored whenever status is not `playing`. -/
theorem C1_timer_gameover (e : Env) (s : GameState) (d : Rat) :
    (s.status = Status.playing → 0 < s.timeRemaining → s.timeRemaining ≤ d →
      ((gameReducer e s (GameAction.UPDATE_TIMER d)).1.status = Status.gameOver ∧
       (gameReducer e s (GameAction.UPDATE_TIMER d)).1.timeRemaining = 0 ∧
       ∀ (e2 : Env) (d2 : Rat),
         gameReducer e2 ((gameReducer e s (GameAction.UPDATE_TIMER d)).1)
             (GameAction.UPDATE_TIMER d2) =
           ((gameReducer e s (GameAction.UPDATE_TIMER d)).1, []))) ∧
    (s.status ≠ Status.playing →
      gameReducer e s (GameAction.UPDATE_TIMER d) = (s, [])) := by
  constructor
  · intro hp ht hd
    have hmax : max 0 (s.timeRemaining - d) = 0 :=
      max_eq_left (by linarith)
    have hred : gameReducer e s (GameAction.UPDATE_TIMER d) =
        ({ s with timeRemaining := 0, status := Status.gameOver },
         match s.settings with
         | some settings => [⟨settings, s.score⟩]
         | none => []) := by
      simp only [gameReducer, hp, ne_eq, not_true_eq_false, if_false, hmax]
      simp [ht]
    rw [hred]
    refine ⟨rfl, rfl, fun e2 d2 => ?_⟩
    simp [gameReducer]
  · intro hns
    simp only [gameReducer, if_pos hns]

/-- C1 witness: from a concrete playing state with 60 seconds left, a
60-second tick reaches `gameOver` at time 0 and a further tick is a
no-op. -/
theorem C1_witness :
    (gameReducer env0 sWrong (GameAction.UPDATE_TIMER 60)).1.status = Status.gameOver ∧
    (gameReducer env0 sWrong (GameAction.UPDATE_TIMER 60)).1.timeRemaining = 0 ∧
    gameReducer env0 ((gameReducer env0 sWrong (GameAction.UPDATE_TIMER 60)).1)
        (GameAction.UPDATE_TIMER 5) =
      ((gameReducer env0 sWrong (GameAction.UPDATE_TIMER 60)).1, []) := by
  have h := (C1_timer_gameover env0 sWrong 60).1 rfl (by norm_num [sWrong]) (by norm_num [sWrong])
  exact ⟨h.1, h.2.1, h.2.2 env0 5⟩

lemma hit_wrong_nonfatal (e : Env) (s : GameState) (aid : String) (a : FallingAnswer)
    (hfind : s.fallingAnswers.find? (fun x => x.id == aid) = some a)
    (hw : a.isCorrect = false) (hl : 2 ≤ s.lives) :
    gameReducer e s (GameAction.HIT_ANSWER aid) =
      ({ s with lives := s.lives - 1, showingAnswer := true, bullets := [] }, []) := by
  simp only [gameReducer, hfind, hw, Bool.false_eq_true, if_false]
  rw [if_neg (by omega)]

lemma hit_wrong_fatal (e : Env) (s : GameState) (aid : String) (a : FallingAnswer)
    (hfind : s.fallingAnswers.find? (fun x => x.id == aid) = some a)
    (hw : a.isCorrect = false) (hl : s.lives ≤ 1) :
    gameReducer e s (GameAction.HIT_ANSWER aid) =
      ({ s with lives := 0, status := Status.gameOver, showingAnswer := true },
       match s.settings with
       | some settings => [⟨settings, s.score⟩]
       | none => []) := by
  simp only [gameReducer, hfind, hw, Bool.false_eq_true, if_false]
  rw [if_pos (by omega)]

/-- C9: a non-fatal wrong hit (lives at least 2) keeps the candidate
list, current problem, score, level, status, settings, player position
and timer unchanged — only lives, `showingAnswer` and the bullet list
change, so the wrongly hit candidate stays in the list. -/
theorem C9_wrong_hit_frame (e : Env) (s : GameState) (aid : String) (a : FallingAnswer)
    (hfind : s.fallingAnswers.find? (fun x => x.id == aid) = some a)
    (hw : a.isCorrect = false) (hl : 2 ≤ s.lives) :
    gameReducer e s (GameAction.HIT_ANSWER aid) =
      ({ s with lives := s.lives - 1, showingAnswer := true, bullets := [] }, []) ∧
    ((gameReducer e s (GameAction.HIT_ANSWER aid)).1.fallingAnswers = s.fallingAnswers ∧
     (gameReducer e s (GameAction.HIT_ANSWER aid)).1.currentProblem = s.currentProblem ∧
     (gameReducer e s (GameAction.HIT_ANSWER aid)).1.score = s.score ∧
     (gameReducer e s (GameAction.HIT_ANSWER aid)).1.level = s.level ∧
     (gameReducer e s (GameAction.HIT_ANSWER aid)).1.status = s.status ∧
     (gameReducer e s (GameAction.HIT_ANSWER aid)).1.settings = s.settings ∧
     (gameReducer e s (GameAction.HIT_ANSWER aid)).1.playerX = s.playerX ∧
     (gameReducer e s (GameAction.HIT_ANSWER aid)).1.timeRemaining = s.timeRemaining) ∧
    ((gameReducer e s (GameAction.HIT_ANSWER aid)).1.lives = s.lives - 1 ∧
     (gameReducer e s (GameAction.HIT_ANSWER aid)).1.showingAnswer = true ∧
     (gameReducer e s (GameAction.HIT_ANSWER aid)).1.bullets = []) := by
  have h := hit_wrong_nonfatal e s aid a hfind hw hl
  refine ⟨h, ⟨?_, ?_, ?_, ?_, ?_, ?_, ?_, ?_⟩, ?_, ?_, ?_⟩ <;> rw [h]

/-- C9 witness: a concrete non-fatal wrong hit leaves the candidate list
and score in place while lives drop to 2. -/
theorem C9_witness :
    (gameReducer env0 sWrong (GameAction.HIT_ANSWER "w0")).1.fallingAnswers =
      sWrong.fallingAnswers ∧
    (gameReducer env0 sWrong (GameAction.HIT_ANSWER "w0")).1.score = sWrong.score ∧
    (gameReducer env0 sWrong (GameAction.HIT_ANSWER "w0")).1.lives = sWrong.lives - 1 := by
  have h := C9_wrong_hit_frame env0 sWrong "w0" wrongAns rfl rfl (by norm_num [sWrong])
  exact ⟨h.2.1.1, h.2.1.2.2.1, h.2.2.1⟩

/-- C2: a wrong hit decrements lives and starts the reveal with bullets
cleared; when the decremented lives reach 0 it instead pins lives at 0,
sets `gameOver` and emits the high-score persistence call, which records
exactly when the score beats the stored best; from lives=3 three
consecutive wrong hits reach `gameOver` exactly on the third. -/
theorem C2_wrong_hit_lives :
    (∀ (e : Env) (s : GameState) (aid : String) (a : FallingAnswer),
        s.fallingAnswers.find? (fun x => x.id == aid) = some a → a.isCorrect = false →
        2 ≤ s.lives →
        gameReducer e s (GameAction.HIT_ANSWER aid) =
          ({ s with lives := s.lives - 1, showingAnswer := true, bullets := [] }, [])) ∧
    (∀ (e : Env) (s : GameState) (aid : String) (a : FallingAnswer) (cfg : GameSettings),
        s.fallingAnswers.find? (fun x => x.id == aid) = some a → a.isCorrect = false →
        s.lives = 1 → s.settings = some cfg →
        gameReducer e s (GameAction.HIT_ANSWER aid) =
          ({ s with lives := 0, status := Status.gameOver, showingAnswer := true },
           [⟨cfg, s.score⟩])) ∧
    (∀ (cfg : GameSettings) (score : Int) (d : String) (ls : LocalStorage),
        ls.readFails = false → ls.writeFails = false →
        ((saveHighScore cfg score d ls).1 = true ↔ getHighScore cfg ls < score)) ∧
    (∀ (e1 e2 e3 : Env) (id1 id2 id3 : String) (s s1 s2 s3 : GameState),
        s.status = Status.playing → s.lives = 3 →
        WrongStep e1 id1 s s1 → WrongStep e2 id2 s1 s2 → WrongStep e3 id3 s2 s3 →
        (s1.lives = 2 ∧ s1.status = Status.playing) ∧
        (s2.lives = 1 ∧ s2.status = Status.playing) ∧
        (s3.lives = 0 ∧ s3.status = Status.gameOver)) := by
  refine ⟨?_, ?_, ?_, ?_⟩
  · intro e s aid a hfind hw hl
    exact hit_wrong_nonfatal e s aid a hfind hw hl
  · intro e s aid a cfg hfind hw hl hset
    rw [hit_wrong_fatal e s aid a hfind hw (by omega), hset]
  · intro cfg score d ls hr hw
    simp only [saveHighScore, getHighScore, hw, Bool.false_eq_true, if_false]
    split_ifs with h
    · simp [h]
    · simp [h]
  · intro e1 e2 e3 id1 id2 id3 s s1 s2 s3 hst hl h1 h2 h3
    obtain ⟨⟨a1, hf1, hw1⟩, hs1⟩ := h1
    rw [hit_wrong_nonfatal e1 s id1 a1 hf1 hw1 (by omega)] at hs1
    obtain ⟨⟨a2, hf2, hw2⟩, hs2⟩ := h2
    rw [hs1] at hf2 ⊢
    rw [hs1] at hs2
    rw [hit_wrong_nonfatal e2 _ id2 a2 hf2 hw2 (by simp; omega)] at hs2
    obtain ⟨⟨a3, hf3, hw3⟩, hs3⟩ := h3
    rw [hs2] at hf3 ⊢
    rw [hs2] at hs3
    rw [hit_wrong_fatal e3 _ id3 a3 hf3 hw3 (by simp; omega)] at hs3
    rw [hs3]
    refine ⟨⟨by simp; omega, by simp [hst]⟩, ⟨by simp; omega, by simp [hst]⟩, by simp, by simp⟩

/-- C2 witness: a concrete wrong hit with lives = 1 ends the game with
lives 0 and emits the persistence call; on a fresh, working store that
call records iff the score beats the best. -/
theorem C2_witness :
    gameReducer env0 { sWrong with lives := 1 } (GameAction.HIT_ANSWER "w0") =
      ({ { sWrong with lives := 1 } with
          lives := 0, status := Status.gameOver, showingAnswer := true },
       [⟨cfg0, (0 : Int)⟩]) ∧
    ((saveHighScore cfg0 0 "d" ⟨none, false, false⟩).1 = true ↔
      getHighScore cfg0 ⟨none, false, false⟩ < 0) := by
  refine ⟨?_, C2_wrong_hit_lives.2.2.1 cfg0 0 "d" ⟨none, false, false⟩ rfl rfl⟩
  exact C2_wrong_hit_lives.2.1 env0 { sWrong with lives := 1 } "w0" wrongAns cfg0 rfl rfl rfl rfl

/-- C4 counterexample: after a first wrong-candidate `HIT_ANSWER`, the
candidate is still present, so dispatching the same id again changes the
state a second time (lives drop again) — the claimed idempotence fails. -/
theorem C4_counterexample :
    (gameReducer env0 ((gameReducer env0 sWrong (GameAction.HIT_ANSWER "w0")).1)
        (GameAction.HIT_ANSWER "w0")).1 ≠
      (gameReducer env0 sWrong (GameAction.HIT_ANSWER "w0")).1 := by
  decide

/-- C4 (amended): `HIT_ANSWER` with an id absent from the candidate list
returns the state unchanged with no effect; hence a repeat dispatch is a
no-op exactly when the first resolution removed the id from the list (as
a correct hit does via fresh candidates) — after a non-fatal wrong hit
the candidate remains and a repeat dispatch decrements lives again. -/
theorem C4_absent_noop :
    (∀ (e : Env) (s : GameState) (aid : String),
        s.fallingAnswers.find? (fun x => x.id == aid) = none →
        gameReducer e s (GameAction.HIT_ANSWER aid) = (s, [])) ∧
    (∀ (e1 e2 : Env) (s : GameState) (aid : String),
        ((gameReducer e1 s (GameAction.HIT_ANSWER aid)).1).fallingAnswers.find?
            (fun x => x.id == aid) = none →
        gameReducer e2 ((gameReducer e1 s (GameAction.HIT_ANSWER aid)).1)
            (GameAction.HIT_ANSWER aid) =
          ((gameReducer e1 s (GameAction.HIT_ANSWER aid)).1, [])) := by
  have base : ∀ (e : Env) (s : GameState) (aid : String),
      s.fallingAnswers.find? (fun x => x.id == aid) = none →
      gameReducer e s (GameAction.HIT_ANSWER aid) = (s, []) := by
    intro e s aid hfind
    simp only [gameReducer, hfind]
  exact ⟨base, fun e1 e2 s aid h => base e2 _ aid h⟩

/-- C4 witness: an id that is not in the candidate list is ignored. -/
theorem C4_witness :
    gameReducer env0 createInitialState (GameAction.HIT_ANSWER "zz") =
      (createInitialState, []) :=
  C4_absent_noop.1 env0 createInitialState "zz" rfl

lemma hit_correct_eq (e : Env) (s : GameState) (aid : String) (a : FallingAnswer)
    (cfg : GameSettings)
    (hfind : s.fallingAnswers.find? (fun x => x.id == aid) = some a)
    (hc : a.isCorrect = true) (hset : s.settings = some cfg) :
    gameReducer e s (GameAction.HIT_ANSWER aid) =
      ({ s with
          score := s.score + 10
          level := (s.score + 10).fdiv 50 + 1
          currentProblem := some (generateNewProblem cfg e).1
          fallingAnswers := (generateNewProblem cfg e).2
          bullets := [] }, []) := by
  simp only [gameReducer, hfind, hc, if_true, hset]

lemma correctStep_fields {e : Env} {aid : String} {s t : GameState}
    (h : CorrectStep e aid s t) {cfg : GameSettings} (hset : s.settings = some cfg) :
    t.score = s.score + 10 ∧ t.level = (s.score + 10).fdiv 50 + 1 ∧
    t.settings = some cfg ∧ t.currentProblem = some (generateNewProblem cfg e).1 ∧
    t.fallingAnswers = (generateNewProblem cfg e).2 ∧ t.bullets = [] := by
  obtain ⟨⟨a, hfind, hc⟩, ht⟩ := h
  rw [hit_correct_eq e s aid a cfg hfind hc hset] at ht
  subst ht
  exact ⟨rfl, rfl, hset, rfl, rfl, rfl⟩

lemma correctHits_invariant {s : GameState} {n : Nat} {t : GameState}
    (h : CorrectHits s n t) :
    ∀ cfg : GameSettings, s.settings = some cfg → s.level = s.score.fdiv 50 + 1 →
      t.score = s.score + 10 * n ∧ t.level = t.score.fdiv 50 + 1 ∧
      t.settings = some cfg := by
  induction h with
  | refl s =>
    intro cfg hset hlev
    refine ⟨by push_cast; ring, hlev, hset⟩
  | step hstep hrest ih =>
    intro cfg hset hlev
    obtain ⟨hsc, hlv, hst, _, _, _⟩ := correctStep_fields hstep hset
    obtain ⟨h1, h2, h3⟩ := ih cfg hst (by rw [hlv, hsc])
    refine ⟨?_, h2, h3⟩
    rw [h1, hsc]
    push_cast
    ring

lemma start_state_fields (e : Env) (s : GameState) (cfg : GameSettings) :
    ((gameReducer e s (GameAction.START_GAME cfg)).1).settings = some cfg ∧
    ((gameReducer e s (GameAction.START_GAME cfg)).1).score = 0 ∧
    ((gameReducer e s (GameAction.START_GAME cfg)).1).level = 1 :=
  ⟨rfl, rfl, rfl⟩

/-- C3: from a freshly started game, `N` consecutive correct hits give
score `10·N` and level `⌊10N/50⌋+1`; each correct hit adds exactly 10 to
the score, recomputes the level, installs a freshly generated problem and
candidate set, and clears all projectiles. -/
theorem C3_scoring :
    (∀ (e : Env) (sPre : GameState) (cfg : GameSettings) (N : Nat) (s0 sN : GameState),
        s0 = (gameReducer e sPre (GameAction.START_GAME cfg)).1 →
        CorrectHits s0 N sN →
        sN.score = 10 * (N : Int) ∧ sN.level = ((10 : Int) * N).fdiv 50 + 1) ∧
    (∀ (e : Env) (aid : String) (s t : GameState) (cfg : GameSettings),
        CorrectStep e aid s t → s.settings = some cfg →
        t.score = s.score + 10 ∧ t.level = (s.score + 10).fdiv 50 + 1 ∧
        t.currentProblem = some (generateNewProblem cfg e).1 ∧
        t.fallingAnswers = (generateNewProblem cfg e).2 ∧ t.bullets = []) := by
  constructor
  · intro e sPre cfg N s0 sN hs0 hchain
    obtain ⟨hset, hsc, hlv⟩ := start_state_fields e sPre cfg
    rw [← hs0] at hset hsc hlv
    obtain ⟨h1, h2, h3⟩ := correctHits_invariant hchain cfg hset (by rw [hsc, hlv]; decide)
    rw [hsc] at h1
    rw [h1] at h2
    constructor
    · rw [h1]; ring
    · rw [h2]; norm_num
  · intro e aid s t cfg hstep hset
    obtain ⟨h1, h2, _, h4, h5, h6⟩ := correctStep_fields hstep hset
    exact ⟨h1, h2, h4, h5, h6⟩

/-- C3 witness: the started state itself (0 hits) has score 0 and level
1, and one concrete correct hit adds exactly 10 points and clears the
bullets. -/
theorem C3_witness :
    (startedState.score = 10 * ((0 : Nat) : Int) ∧
     startedState.level = ((10 : Int) * (0 : Nat)).fdiv 50 + 1) ∧
    ((gameReducer env0 sCorrect (GameAction.HIT_ANSWER "c0")).1.score =
        sCorrect.score + 10 ∧
     (gameReducer env0 sCorrect (GameAction.HIT_ANSWER "c0")).1.bullets = []) := by
  constructor
  · exact C3_scoring.1 env0 createInitialState cfg0 0 startedState startedState rfl
      (CorrectHits.refl startedState)
  · have h := C3_scoring.2 env0 "c0" sCorrect
      ((gameReducer env0 sCorrect (GameAction.HIT_ANSWER "c0")).1) cfg0
      ⟨⟨{ id := "c0", value := 5, x := 160, y := 100, speed := 0, isCorrect := true },
        rfl, rfl⟩, rfl⟩ rfl
    exact ⟨h.1, h.2.2.2.2⟩

lemma reducer_score_cases (e : Env) (s : GameState) (a : GameAction) :
    ((gameReducer e s a).1.score = s.score) ∨ ((gameReducer e s a).1.score = 0) ∨
    ((gameReducer e s a).1.score = s.score + 10) := by
  cases a <;> simp only [gameReducer] <;> (repeat' split) <;>
    first
      | exact Or.inl trivial
      | exact Or.inr (Or.inl trivial)
      | exact Or.inr (Or.inr rfl)
      | exact Or.inl rfl
      | exact Or.inr (Or.inl rfl)

lemma reachable_score_mul {s : GameState} (h : Reachable s) :
    ∃ k : Nat, s.score = 10 * (k : Int) := by
  induction h with
  | init => exact ⟨0, by norm_num [createInitialState]⟩
  | step hr ih =>
    obtain ⟨k, hk⟩ := ih
    rename_i s e a
    rcases reducer_score_cases e s a with hc | hc | hc
    · exact ⟨k, by rw [hc, hk]⟩
    · exact ⟨0, by rw [hc]; norm_num⟩
    · exact ⟨k + 1, by rw [hc, hk]; push_cast; ring⟩

/-- C10: in every reachable state the score is a non-negative multiple
of 10; it is 0 initially, reset to 0 by `START_GAME` and
`RETURN_TO_MENU`, raised by exactly 10 on a correct hit, and left
unchanged by every other action (including wrong or absent hits). -/
theorem C10_score_invariant :
    (∀ s : GameState, Reachable s → ∃ k : Nat, s.score = 10 * (k : Int)) ∧
    createInitialState.score = 0 ∧
    (∀ (e : Env) (s : GameState) (cfg : GameSettings),
        ((gameReducer e s (GameAction.START_GAME cfg)).1).score = 0) ∧
    (∀ (e : Env) (s : GameState),
        ((gameReducer e s GameAction.RETURN_TO_MENU).1).score = 0) ∧
    (∀ (e : Env) (s : GameState) (aid : String) (a : FallingAnswer) (cfg : GameSettings),
        s.fallingAnswers.find? (fun x => x.id == aid) = some a → a.isCorrect = true →
        s.settings = some cfg →
        ((gameReducer e s (GameAction.HIT_ANSWER aid)).1).score = s.score + 10) ∧
    (∀ (e : Env) (s : GameState) (aid : String),
        (¬ ∃ a, s.fallingAnswers.find? (fun x => x.id == aid) = some a ∧
            a.isCorrect = true) →
        ((gameReducer e s (GameAction.HIT_ANSWER aid)).1).score = s.score) ∧
    (∀ (e : Env) (s : GameState) (act : GameAction),
        (∀ cfg, act ≠ GameAction.START_GAME cfg) →
        act ≠ GameAction.RETURN_TO_MENU →
        (∀ aid, act ≠ GameAction.HIT_ANSWER aid) →
        ((gameReducer e s act).1).score = s.score) := by
  refine ⟨fun s h => reachable_score_mul h, rfl, fun e s cfg => rfl, fun e s => rfl,
    ?_, ?_, ?_⟩
  · intro e s aid a cfg hfind hc hset
    rw [hit_correct_eq e s aid a cfg hfind hc hset]
  · intro e s aid hno
    cases hfind : s.fallingAnswers.find? (fun x => x.id == aid) with
    | none => simp only [gameReducer, hfind]
    | some a =>
      cases hc : a.isCorrect with
      | true => exact absurd ⟨a, hfind, hc⟩ hno
      | false =>
        simp only [gameReducer, hfind, hc, Bool.false_eq_true, if_false]
        split <;> rfl
  · intro e s act hns hnr hnh
    cases act <;> simp only [gameReducer] <;> (repeat' split) <;>
      first
        | trivial
        | exact absurd rfl (hns _)
        | exact absurd rfl hnr
        | exact absurd rfl (hnh _)

/-- C10 witness: the initial state is reachable and its score is a
multiple of 10, and a concrete correct hit raises a reachable-style
score by exactly 10. -/
theorem C10_witness :
    (∃ k : Nat, createInitialState.score = 10 * (k : Int)) ∧
    ((gameReducer env0 sCorrect (GameAction.HIT_ANSWER "c0")).1).score =
      sCorrect.score + 10 := by
  refine ⟨C10_score_invariant.1 createInitialState Reachable.init, ?_⟩
  exact C10_score_invariant.2.2.2.2.1 env0 sCorrect "c0"
    { id := "c0", value := 5, x := 160, y := 100, speed := 0, isCorrect := true }
    cfg0 rfl rfl rfl

lemma objGet_objSet (m : HighScoresMap) (k : String) (v : HighScore) :
    objGet (objSet m k v) k = some v := by
  induction m with
  | nil => simp [objGet, objSet, List.find?]
  | cons e rest ih =>
    by_cases h : e.1 == k
    · simp [objGet, objSet, List.find?, h]
    · simpa [objGet, objSet, List.find?, h] using ih

/-- C8 counterexample: with a store whose read fails but whose write
succeeds (e.g. corrupted stored JSON), `saveHighScore` with a positive
score returns `true`, not the `false` the claim demands for any
persistence failure. -/
theorem C8_counterexample :
    ¬ ((saveHighScore cfg0 10 "d" ⟨none, true, false⟩).1 = false) := by
  decide

/-- C8 (amended): `getHighScore` returns the stored best and 0 when
nothing is recorded or the read fails; on readable, writable storage
`saveHighScore` returns true iff the score strictly beats the stored
best, and then the new best is recorded; when the write fails it returns
false leaving the store unchanged; when only the read fails the store is
treated as empty, so it records and returns true iff the score is
positive. -/
theorem C8_store :
    (∀ (cfg : GameSettings) (ls : LocalStorage), ls.stored = none →
        getHighScore cfg ls = 0) ∧
    (∀ (cfg : GameSettings) (ls : LocalStorage), ls.readFails = true →
        getHighScore cfg ls = 0) ∧
    (∀ (cfg : GameSettings) (score : Int) (d : String) (ls : LocalStorage),
        ls.readFails = false → ls.writeFails = false →
        (((saveHighScore cfg score d ls).1 = true ↔ getHighScore cfg ls < score) ∧
         ((saveHighScore cfg score d ls).1 = true →
           getHighScore cfg (saveHighScore cfg score d ls).2 = score))) ∧
    (∀ (cfg : GameSettings) (score : Int) (d : String) (ls : LocalStorage),
        ls.writeFails = true → saveHighScore cfg score d ls = (false, ls)) ∧
    (∀ (cfg : GameSettings) (score : Int) (d : String) (ls : LocalStorage),
        ls.readFails = true → ls.writeFails = false →
        ((saveHighScore cfg score d ls).1 = true ↔ 0 < score)) := by
  have hsave : ∀ (cfg : GameSettings) (score : Int) (d : String) (ls : LocalStorage),
      saveHighScore cfg score d ls =
        if getHighScore cfg ls < score then
          (if ls.writeFails then (false, ls)
           else (true, { ls with
              stored := some (objSet (getHighScores ls) (getScoreKey cfg) ⟨score, d⟩) }))
        else (false, ls) := fun cfg score d ls => rfl
  refine ⟨?_, ?_, ?_, ?_, ?_⟩
  · intro cfg ls h
    cases hr : ls.readFails <;>
      simp [getHighScore, getHighScores, objGet, h, hr, List.find?]
  · intro cfg ls h
    simp [getHighScore, getHighScores, h, objGet, List.find?]
  · intro cfg score d ls hr hw
    rw [hsave]
    constructor
    · split_ifs with h h2
      · simp [hw] at h2
      · simp [h]
      · simp [h]
    · intro hs
      have hcond : getHighScore cfg ls < score := by
        by_contra hc
        rw [if_neg hc] at hs
        exact absurd hs (by simp)
      rw [if_pos hcond] at hs ⊢
      simp only [hw, Bool.false_eq_true, if_false] at hs ⊢
      simp [getHighScore, getHighScores, hr, objGet_objSet]
  · intro cfg score d ls h
    rw [hsave]
    split_ifs with h1 <;> simp [h]
  · intro cfg score d ls hr hw
    have hgh : getHighScore cfg ls = 0 := by
      simp [getHighScore, getHighScores, hr, objGet, List.find?]
    rw [hsave, hgh]
    split_ifs with h h2
    · simp [hw] at h2
    · simp [h]
    · simp [h]

/-- C8 witness: on a fresh working store a score of 10 records (best was
0), and with a failing write the call returns false leaving the store
unchanged. -/
theorem C8_witness :
    ((saveHighScore cfg0 10 "d" ⟨some [], false, false⟩).1 = true ↔
      getHighScore cfg0 ⟨some [], false, false⟩ < 10) ∧
    saveHighScore cfg0 10 "d" ⟨some [], false, true⟩ = (false, ⟨some [], false, true⟩) :=
  ⟨(C8_store.2.2.1 cfg0 10 "d" ⟨some [], false, false⟩ rfl rfl).1,
   C8_store.2.2.2.1 cfg0 10 "d" ⟨some [], false, true⟩ rfl⟩

lemma countP_set_add {α : Type} (p : α → Bool) (l : List α) :
    ∀ (n : Nat) (a b : α), l.get? n = some a →
      List.countP p (l.set n b) + (if p a then 1 else 0) =
        List.countP p l + (if p b then 1 else 0) := by
  induction l with
  | nil => intro n a b h; simp at h
  | cons x t ih =>
    intro n a b h
    cases n with
    | zero =>
      simp only [List.get?_cons_zero, Option.some.injEq] at h
      subst h
      simp only [List.set_cons_zero, List.countP_cons]
      omega
    | succ m =>
      simp only [List.get?_cons_succ] at h
      simp only [List.set_cons_succ, List.countP_cons]
      have := ih m a b h
      omega

lemma countP_listSwap (p : Int → Bool) (l : List Int) (i j : Nat) :
    List.countP p (listSwap l i j) = List.countP p l := by
  unfold listSwap
  cases hi : l.get? i with
  | none => cases hj : l.get? j <;> rfl
  | some a =>
    cases hj : l.get? j with
    | none => rfl
    | some b =>
      simp only []
      by_cases hij : i = j
      · subst hij
        rw [hi] at hj
        injection hj with hba
        subst hba
        rw [List.set_set]
        have := countP_set_add p l i a a hi
        omega
      · have h2 : (l.set i b).get? j = some b := by
          rw [List.get?_set_ne b l hij]
          exact hj
        have h1 := countP_set_add p l i a b hi
        have h3 := countP_set_add p (l.set i b) j b a h2
        omega

lemma length_listSwap (l : List Int) (i j : Nat) :
    (listSwap l i j).length = l.length := by
  unfold listSwap
  cases hi : l.get? i <;> cases hj : l.get? j <;> simp [List.length_set]

lemma fyGo_countP (p : Int → Bool) :
    ∀ (k seed : Nat) (l : List Int), List.countP p (fyGo k seed l) = List.countP p l := by
  intro k
  induction k with
  | zero => intro seed l; rfl
  | succ m ih =>
    intro seed l
    have h : fyGo (m + 1) seed l =
        fyGo m (randNat seed (m + 2)).2 (listSwap l (m + 1) (randNat seed (m + 2)).1) := rfl
    rw [h, ih, countP_listSwap]

lemma fyGo_length :
    ∀ (k seed : Nat) (l : List Int), (fyGo k seed l).length = l.length := by
  intro k
  induction k with
  | zero => intro seed l; rfl
  | succ m ih =>
    intro seed l
    have h : fyGo (m + 1) seed l =
        fyGo m (randNat seed (m + 2)).2 (listSwap l (m + 1) (randNat seed (m + 2)).1) := rfl
    rw [h, ih, length_listSwap]

lemma bandFallback_length (c : Int) (need : Nat) :
    (bandFallback c need).length = need := by
  simp [bandFallback]

lemma goWrong_length (correct : Int) (count : Nat) :
    ∀ (fuel seed : Nat) (acc : List Int), acc.length ≤ count →
      ((goWrong correct count fuel seed acc).1).length = count := by
  intro fuel
  induction fuel with
  | zero =>
    intro seed acc h
    show (acc ++ bandFallback correct (count - acc.length)).length = count
    rw [List.length_append, bandFallback_length]
    omega
  | succ m ih =>
    intro seed acc h
    simp only [goWrong]
    split_ifs with h1 h2
    · show acc.length = count
      omega
    · exact ih _ _ (by simp only [List.length_append, List.length_cons,
        List.length_nil]; omega)
    · exact ih _ _ h

lemma goWrong_mem (correct : Int) (count : Nat) :
    ∀ (fuel seed : Nat) (acc : List Int), (∀ v ∈ acc, v ≠ correct) →
      ∀ v ∈ (goWrong correct count fuel seed acc).1, v ≠ correct := by
  intro fuel
  induction fuel with
  | zero =>
    intro seed acc hacc v hv
    simp only [goWrong] at hv
    rcases List.mem_append.mp hv with h | h
    · exact hacc v h
    · simp only [bandFallback, List.mem_map, List.mem_range] at h
      obtain ⟨i, _, hvi⟩ := h
      subst hvi
      omega
  | succ m ih =>
    intro seed acc hacc v hv
    simp only [goWrong] at hv
    split_ifs at hv with h1 h2
    · exact hacc v hv
    · refine ih _ _ ?_ v hv
      intro w hw
      rcases List.mem_append.mp hw with h | h
      · exact hacc w h
      · simp only [List.mem_singleton] at h
        subst h
        exact h2.1
    · exact ih _ _ hacc v hv

lemma generateWrongAnswers_length (c : Int) (seed : Nat) :
    ((generateWrongAnswers c 3 seed).1).length = 3 :=
  goWrong_length c 3 _ seed [] (by simp)

lemma generateWrongAnswers_mem (c : Int) (seed : Nat) :
    ∀ v ∈ (generateWrongAnswers c 3 seed).1, v ≠ c :=
  goWrong_mem c 3 _ seed [] (by simp)

lemma mkAnswers_length (now : Nat) (c : Int) (sp : Rat) :
    ∀ (i : Nat) (l : List Int), (mkAnswers now c sp i l).length = l.length := by
  intro i l
  induction l generalizing i with
  | nil => rfl
  | cons v rest ih => simp [mkAnswers, ih]

lemma mkAnswers_countP (now : Nat) (c : Int) (sp : Rat) :
    ∀ (i : Nat) (l : List Int),
      List.countP (fun a => a.isCorrect) (mkAnswers now c sp i l) =
        List.countP (fun v => v == c) l := by
  intro i l
  induction l generalizing i with
  | nil => rfl
  | cons v rest ih =>
    simp only [mkAnswers, List.countP_cons, ih]

lemma mkAnswers_mem (now : Nat) (c : Int) (sp : Rat) :
    ∀ (i : Nat) (l : List Int) (a : FallingAnswer),
      a ∈ mkAnswers now c sp i l → a.isCorrect = (a.value == c) := by
  intro i l
  induction l generalizing i with
  | nil => intro a ha; simp [mkAnswers] at ha
  | cons v rest ih =>
    intro a ha
    rcases (List.mem_cons).mp ha with h | h
    · subst h; rfl
    · exact ih _ a h

lemma mkAnswers_get (now : Nat) (c : Int) (sp : Rat) :
    ∀ (l : List Int) (i k : Nat) (h : k < (mkAnswers now c sp i l).length),
      ((mkAnswers now c sp i l).get ⟨k, h⟩).x = sp * ((i : Rat) + (k : Rat) + 1) ∧
      ((mkAnswers now c sp i l).get ⟨k, h⟩).y = 100 := by
  intro l
  induction l with
  | nil => intro i k h; simp [mkAnswers] at h
  | cons v rest ih =>
    intro i k h
    cases k with
    | zero =>
      constructor
      · show sp * ((i : Rat) + 1) = sp * ((i : Rat) + (0 : Nat) + 1)
        norm_num
      · rfl
    | succ m =>
      have h2 : m < (mkAnswers now c sp (i + 1) rest).length := by
        simp only [mkAnswers, List.length_cons] at h
        omega
      obtain ⟨hx, hy⟩ := ih (i + 1) m h2
      refine ⟨?_, hy⟩
      rw [show ((mkAnswers now c sp i (v :: rest)).get ⟨m + 1, h⟩) =
          ((mkAnswers now c sp (i + 1) rest).get ⟨m, h2⟩) from rfl, hx]
      push_cast
      ring

lemma candidates_spec (now : Nat) (c : Int) (sseed : Nat) (wrongs : List Int)
    (ans : List FallingAnswer)
    (hlen : wrongs.length = 3) (hmem : ∀ v ∈ wrongs, v ≠ c)
    (hans : ans = mkAnswers now c (GAME_WIDTH / (((c :: wrongs).length : Rat) + 1)) 0
        (fisherYates sseed (c :: wrongs))) :
    ans.length = 4 ∧
    List.countP (fun a => a.isCorrect) ans = 1 ∧
    (∀ a ∈ ans, a.isCorrect = (a.value == c)) ∧
    (∀ (k : Nat) (h : k < ans.length),
      (ans.get ⟨k, h⟩).x = 160 * ((k : Rat) + 1) ∧ (ans.get ⟨k, h⟩).y = 100) := by
  subst hans
  have hshuf : (fisherYates sseed (c :: wrongs)).length = 4 := by
    unfold fisherYates
    rw [fyGo_length]
    simp [hlen]
  have hsp : GAME_WIDTH / (((c :: wrongs).length : Rat) + 1) = 160 := by
    rw [List.length_cons, hlen]
    norm_num [GAME_WIDTH]
  refine ⟨?_, ?_, ?_, ?_⟩
  · rw [mkAnswers_length, hshuf]
  · rw [mkAnswers_countP]
    unfold fisherYates
    rw [fyGo_countP, List.countP_cons]
    have hz : List.countP (fun v => v == c) wrongs = 0 := by
      refine List.countP_eq_zero.mpr ?_
      intro v hv
      simpa using hmem v hv
    simp [hz]
  · intro a ha
    exact mkAnswers_mem now c _ 0 _ a ha
  · intro k h
    obtain ⟨hx, hy⟩ := mkAnswers_get now c _ (fisherYates sseed (c :: wrongs)) 0 k h
    refine ⟨?_, hy⟩
    rw [hx, hsp]
    norm_num

lemma generateNewProblem_candidates (cfg : GameSettings) (env : Env) :
    ((generateNewProblem cfg env).2).length = 4 ∧
    List.countP (fun a => a.isCorrect) ((generateNewProblem cfg env).2) = 1 ∧
    (∀ a ∈ (generateNewProblem cfg env).2,
      a.isCorrect = (a.value == (generateNewProblem cfg env).1.correctAnswer)) ∧
    (∀ (k : Nat) (h : k < ((generateNewProblem cfg env).2).length),
      (((generateNewProblem cfg env).2).get ⟨k, h⟩).x = 160 * ((k : Rat) + 1) ∧
      (((generateNewProblem cfg env).2).get ⟨k, h⟩).y = 100) :=
  candidates_spec env.now
    (generateProblem cfg.operation cfg.specificNumber env.seed).1.correctAnswer
    (generateWrongAnswers
      (generateProblem cfg.operation cfg.specificNumber env.seed).1.correctAnswer 3
      (generateProblem cfg.operation cfg.specificNumber env.seed).2).2
    (generateWrongAnswers
      (generateProblem cfg.operation cfg.specificNumber env.seed).1.correctAnswer 3
      (generateProblem cfg.operation cfg.specificNumber env.seed).2).1
    ((generateNewProblem cfg env).2)
    (generateWrongAnswers_length _ _)
    (generateWrongAnswers_mem _ _)
    (by rfl)

/-- C7: every generated candidate set (as installed at `START_GAME`, on
a correct hit, and at `NEXT_PROBLEM`) has exactly 4 candidates, exactly
one of them marked correct, `isCorrect` holding precisely for the value
equal to the problem's correct answer, at evenly spaced x positions
`160·(index+1)` and fixed y = 100. -/
theorem C7_candidate_sets :
    (∀ (cfg : GameSettings) (env : Env),
        ((generateNewProblem cfg env).2).length = 4) ∧
    (∀ (cfg : GameSettings) (env : Env),
        List.countP (fun a => a.isCorrect) ((generateNewProblem cfg env).2) = 1) ∧
    (∀ (cfg : GameSettings) (env : Env) (a : FallingAnswer),
        a ∈ (generateNewProblem cfg env).2 →
        (a.isCorrect = true ↔ a.value = (generateNewProblem cfg env).1.correctAnswer)) ∧
    (∀ (cfg : GameSettings) (env : Env) (k : Nat)
        (h : k < ((generateNewProblem cfg env).2).length),
        (((generateNewProblem cfg env).2).get ⟨k, h⟩).x = 160 * ((k : Rat) + 1) ∧
        (((generateNewProblem cfg env).2).get ⟨k, h⟩).y = 100) ∧
    (∀ (env : Env) (s : GameState) (cfg : GameSettings),
        ((gameReducer env s (GameAction.START_GAME cfg)).1).fallingAnswers =
          (generateNewProblem cfg env).2) ∧
    (∀ (env : Env) (s : GameState) (aid : String) (a : FallingAnswer) (cfg : GameSettings),
        s.fallingAnswers.find? (fun x => x.id == aid) = some a → a.isCorrect = true →
        s.settings = some cfg →
        ((gameReducer env s (GameAction.HIT_ANSWER aid)).1).fallingAnswers =
          (generateNewProblem cfg env).2) ∧
    (∀ (env : Env) (s : GameState) (cfg : GameSettings), s.settings = some cfg →
        ((gameReducer env s GameAction.NEXT_PROBLEM).1).fallingAnswers =
          (generateNewProblem cfg env).2) := by
  refine ⟨fun cfg env => (generateNewProblem_candidates cfg env).1,
    fun cfg env => (generateNewProblem_candidates cfg env).2.1, ?_, ?_, ?_, ?_, ?_⟩
  · intro cfg env a ha
    have h := (generateNewProblem_candidates cfg env).2.2.1 a ha
    rw [h]
    exact beq_iff_eq
  · intro cfg env k h
    exact (generateNewProblem_candidates cfg env).2.2.2 k h
  · intro env s cfg
    rfl
  · intro env s aid a cfg hfind hc hset
    rw [hit_correct_eq env s aid a cfg hfind hc hset]
  · intro env s cfg hset
    simp only [gameReducer, hset]

/-- C7 witness: concrete candidate sets — index 0 of a concretely
generated set sits at x = 160, y = 100 and is marked correct iff its
value is the correct answer; concrete correct-hit and next-problem
dispatches install the freshly generated set. -/
theorem C7_witness :
    ((((generateNewProblem cfg0 env0).2).get
        ⟨0, by rw [C7_candidate_sets.1 cfg0 env0]; norm_num⟩).x = 160 * ((0 : Rat) + 1) ∧
     (((generateNewProblem cfg0 env0).2).get
        ⟨0, by rw [C7_candidate_sets.1 cfg0 env0]; norm_num⟩).y = 100) ∧
    ((gameReducer env0 sCorrect (GameAction.HIT_ANSWER "c0")).1).fallingAnswers =
      (generateNewProblem cfg0 env0).2 ∧
    ((gameReducer env0 sCorrect GameAction.NEXT_PROBLEM).1).fallingAnswers =
      (generateNewProblem cfg0 env0).2 := by
  refine ⟨C7_candidate_sets.2.2.2.1 cfg0 env0 0 _, ?_, ?_⟩
  · exact C7_candidate_sets.2.2.2.2.2.1 env0 sCorrect "c0"
      { id := "c0", value := 5, x := 160, y := 100, speed := 0, isCorrect := true }
      cfg0 rfl rfl rfl
  · exact C7_candidate_sets.2.2.2.2.2.2 env0 sCorrect cfg0 rfl

end MathInvaders
